import Mathlib

/-!
Shallow embedding of the local persistence and state-reconciliation layer of
the "goods" inventory application (src/App.tsx, src/types.ts, and the
database module src/unnamed/part_000, imported in App.tsx as `db`).

Modelling choices, each noted at the definition it concerns:
  * JavaScript numbers that the code explicitly tests with `isNaN` are
    modelled by `JNum` (either `nan` or a rational); all other numeric
    values (prices, quantities, timestamps) are modelled as rationals,
    integers and naturals.
  * The IndexedDB object stores (`categories`, `products`, `sales`, each
    with `keyPath: 'id'`) are modelled as lists in which `put` replaces
    the entry with the same id or appends, and `delete` filters by id.
  * `localStorage` is modelled by dedicated fields of `StoreState`: the
    `TOTAL_EARNINGS` key as `Option ℚ` (the code always writes a non-NaN
    number there) and the per-email cloud keys as an association list.
  * The JSON round trip done by `syncToCloud` / `fetchFromCloud` is
    modelled structurally, except that a NaN earnings value serializes to
    null (as `JSON.stringify` does), modelled by `Option ℚ` in the payload.
-/

namespace Goods

/-- Category entity, from src/types.ts. -/
structure Category where
  id : String
  name : String
  image : String
deriving DecidableEq, Repr

/-- Product entity, from src/types.ts. `price` is the composite
"retail[/wholesale]" string; `quantity` is a number, modelled as an
integer. -/
structure Product where
  id : String
  name : String
  price : String
  quantity : Int
  categoryId : String
  barcode : String
  image : String
deriving DecidableEq, Repr

/-- SaleRecord entity, from src/types.ts. -/
structure SaleRecord where
  id : String
  productId : String
  productName : String
  productImage : String
  quantity : Int
  soldAtPrice : ℚ
  timestamp : Nat
deriving DecidableEq, Repr

/-- JavaScript number that may be NaN; used where the code tests `isNaN`. -/
inductive JNum where
  | nan : JNum
  | num : ℚ → JNum
deriving DecidableEq, Repr

/-- Embedding of the pattern `isNaN(x) ? 0 : x` (src/App.tsx line 147 and
src/unnamed/part_000 line 84). -/
def JNum.nanToZero : JNum → ℚ
  | .nan => 0
  | .num q => q

/-- Embedding of JSON serialization of a possibly-NaN number:
`JSON.stringify` turns NaN into null, modelled as `none`. -/
def JNum.toJson : JNum → Option ℚ
  | .nan => none
  | .num q => some q

/-- Keyed put into an IndexedDB object store with `keyPath: 'id'`:
replace every entry carrying the same key, else append.  Also embeds the
in-memory merge pattern of src/App.tsx lines 107-111 and 118-122
(`find` then `map`-replace or append). -/
def putById {α : Type} (key : α → String) (x : α) (l : List α) : List α :=
  if l.any (fun y => key y == key x) then
    l.map (fun y => if key y == key x then x else y)
  else l ++ [x]

/-- Keyed delete from an IndexedDB object store: remove by key. -/
def removeById {α : Type} (key : α → String) (k : String) (l : List α) : List α :=
  l.filter (fun y => key y != k)

/-- Embedding of `list.forEach(x => store.put(x))` against a cleared
store (src/unnamed/part_000 lines 138-140): sequential keyed puts into
the empty store. -/
def putAll {α : Type} (key : α → String) (l : List α) : List α :=
  l.foldl (fun acc x => putById key x acc) []

/-- Cloud snapshot payload, from src/unnamed/part_000 line 97:
`{ ...data, lastUpdated: Date.now() }` where data is
`{categories, products, sales, earnings}`.  `earnings` is `Option ℚ`
because the payload goes through JSON, which maps NaN to null. -/
structure CloudPayload where
  categories : List Category
  products : List Product
  sales : List SaleRecord
  earnings : Option ℚ
  lastUpdated : Nat
deriving DecidableEq, Repr

/-- Durable state: the three IndexedDB object stores, the
`TOTAL_EARNINGS` localStorage key, and the cloud snapshot keys in
localStorage (key → payload). -/
structure StoreState where
  categories : List Category
  products : List Product
  sales : List SaleRecord
  earnings : Option ℚ
  cloud : List (String × CloudPayload)
deriving DecidableEq, Repr

/-- In-memory React state owned by App: the four collections the claims
are about (src/App.tsx lines 16-19). -/
structure MemState where
  categories : List Category
  products : List Product
  sales : List SaleRecord
  totalEarnings : JNum
deriving DecidableEq, Repr

/-- Combined application state: in-memory state plus durable stores. -/
structure AppState where
  mem : MemState
  store : StoreState
deriving DecidableEq, Repr

/-- Embedding of `saveEarnings` (src/unnamed/part_000 lines 83-86): the
stored value is the amount with NaN clamped to 0. -/
def saveEarningsVal (amount : JNum) : ℚ :=
  amount.nanToZero

/-- Embedding of `getEarnings` (src/unnamed/part_000 lines 88-93): absent
key reads as 0; the stored text always parses back to the stored number
in this model. -/
def getEarnings (st : StoreState) : ℚ :=
  st.earnings.getD 0

/-- Embedding of `overwriteLocalData` (src/unnamed/part_000 lines
130-147): clear the three object stores, re-put every record of the
given lists (keyed by id, later duplicates replacing earlier ones), and
save the earnings scalar. -/
def overwriteLocalData (st : StoreState) (categories : List Category)
    (products : List Product) (earnings : JNum) (sales : List SaleRecord) :
    StoreState :=
  { st with
    categories := putAll Category.id categories
    products := putAll Product.id products
    sales := putAll SaleRecord.id sales
    earnings := some (saveEarningsVal earnings) }

/-- Association-list update for a localStorage key: `setItem` replaces
the entry with the same key or appends a new one. -/
def putKV (k : String) (v : CloudPayload) (l : List (String × CloudPayload)) :
    List (String × CloudPayload) :=
  putById Prod.fst (k, v) l

/-- Association-list lookup for a localStorage key. -/
def lookupKV (k : String) (l : List (String × CloudPayload)) :
    Option CloudPayload :=
  (l.find? (fun kv => kv.1 == k)).map (fun kv => kv.2)

/-- Embedding of `.toLowerCase()`: lower-case every character. -/
def jsToLower (s : String) : String :=
  ⟨s.data.map Char.toLower⟩

/-- Key derivation of the cloud snapshot slot (src/unnamed/part_000
lines 96 and 103): the email lower-cased under a fixed store scope. -/
def cloudKey (email : String) : String :=
  "GLOBAL_CLOUD_DB_" ++ jsToLower email

/-- Embedding of `syncToCloud` (src/unnamed/part_000 lines 95-100):
serialize the in-memory state plus a `lastUpdated` stamp under the
email-derived key.  The JSON round trip maps a NaN earnings to null. -/
def syncToCloud (st : StoreState) (email : String) (m : MemState) (now : Nat) :
    StoreState :=
  let payload : CloudPayload :=
    { categories := m.categories
      products := m.products
      sales := m.sales
      earnings := m.totalEarnings.toJson
      lastUpdated := now }
  { st with cloud := putKV (cloudKey email) payload st.cloud }

/-- Embedding of `fetchFromCloud` (src/unnamed/part_000 lines 102-106). -/
def fetchFromCloud (st : StoreState) (email : String) : Option CloudPayload :=
  lookupKV (cloudKey email) st.cloud

/-- Stable insertion of a sale record into a list sorted by timestamp
descending; `sortSalesDesc` below embeds the JavaScript
`sort((a, b) => b.timestamp - a.timestamp)` of src/App.tsx line 50. -/
def insertDesc (r : SaleRecord) : List SaleRecord → List SaleRecord
  | [] => [r]
  | x :: xs => if x.timestamp < r.timestamp then r :: x :: xs else x :: insertDesc r xs

/-- Sort sales by timestamp descending (src/App.tsx line 50). -/
def sortSalesDesc (l : List SaleRecord) : List SaleRecord :=
  l.foldr insertDesc []

/-- Embedding of `loadData` (src/App.tsx lines 38-58): read the three
collections from the structured store, sort sales by timestamp
descending, and read earnings from the scalar store (`earnings || 0`
leaves a plain number unchanged, since `getEarnings` already maps an
absent or unparseable value to 0). -/
def loadData (st : StoreState) : MemState :=
  { categories := st.categories
    products := st.products
    sales := sortSalesDesc st.sales
    totalEarnings := JNum.num (getEarnings st) }

/-- The sale record built by `handleSale` (src/App.tsx lines 132-140):
its id is `Date.now().toString()` and its timestamp is `Date.now()`,
both taken at creation time and modelled by one `now` parameter. -/
def mkSaleRecord (product : Product) (quantityToSell : Int)
    (soldAtPrice : ℚ) (now : Nat) : SaleRecord :=
  { id := toString now
    productId := product.id
    productName := product.name
    productImage := product.image
    quantity := quantityToSell
    soldAtPrice := soldAtPrice
    timestamp := now }

/-- Embedding of `handleSale` (src/App.tsx lines 127-170).  If no product
with the given id exists in memory the call returns the state unchanged.
Otherwise it persists a new sale record, updates earnings in the scalar
store and in memory (`isNaN(totalEarnings) ? 0 : totalEarnings` plus
`soldAtPrice * quantityToSell`), prepends the record to the in-memory
log, and either deletes the product (when the remaining quantity is at
most 0) or stores it with the decreased quantity.  There is no guard on
`quantityToSell` in the source. -/
def handleSale (s : AppState) (productId : String) (quantityToSell : Int)
    (soldAtPrice : ℚ) (now : Nat) : AppState :=
  match s.mem.products.find? (fun p => p.id == productId) with
  | none => s
  | some product =>
    let saleRecord := mkSaleRecord product quantityToSell soldAtPrice now
    let store1 := { s.store with sales := putById SaleRecord.id saleRecord s.store.sales }
    let saleAmount := soldAtPrice * (quantityToSell : ℚ)
    let currentEarnings := s.mem.totalEarnings.nanToZero
    let newTotalEarnings := currentEarnings + saleAmount
    let store2 := { store1 with earnings := some (saveEarningsVal (JNum.num newTotalEarnings)) }
    let mem1 := { s.mem with
      totalEarnings := JNum.num newTotalEarnings
      sales := saleRecord :: s.mem.sales }
    let newQuantity := product.quantity - quantityToSell
    if newQuantity ≤ 0 then
      { mem := { mem1 with products := removeById Product.id product.id mem1.products }
        store := { store2 with products := removeById Product.id product.id store2.products } }
    else
      let updatedProduct := { product with quantity := newQuantity }
      { mem := { mem1 with
          products := mem1.products.map (fun p => if p.id == product.id then updatedProduct else p) }
        store := { store2 with products := putById Product.id updatedProduct store2.products } }

/-- Import bundle handed to `handleImport` (src/App.tsx line 218: the
parameter has type `any`), with every field possibly absent; absent
fields are JavaScript `undefined`, modelled by `none`. -/
structure ImportData where
  categories : Option (List Category)
  products : Option (List Product)
  sales : Option (List SaleRecord)
  earnings : Option JNum
  totalEarnings : Option JNum
deriving DecidableEq, Repr

/-- JavaScript truthiness of a possibly-absent number: `undefined`, NaN
and 0 are falsy. -/
def jsTruthyNum : Option JNum → Bool
  | some (.num q) => q != 0
  | _ => false

/-- Embedding of `a || b` on possibly-absent numbers. -/
def jsOrNum (a : Option JNum) (b : JNum) : JNum :=
  match a with
  | some (.num q) => if q == 0 then b else .num q
  | _ => b

/-- Embedding of `handleImport` (src/App.tsx lines 218-234), modelling
the branch in which the user confirms: default each missing collection
to the empty list and the earnings to
`data.earnings || data.totalEarnings || 0`, call `overwriteLocalData`,
and then set the in-memory collections directly from the bundle values
(the source does not reload from the stores here). -/
def handleImport (s : AppState) (data : ImportData) : AppState :=
  let newCategories := data.categories.getD []
  let newProducts := data.products.getD []
  let newSales := data.sales.getD []
  let newEarnings := jsOrNum data.earnings (jsOrNum data.totalEarnings (JNum.num 0))
  { mem :=
      { categories := newCategories
        products := newProducts
        sales := newSales
        totalEarnings := newEarnings }
    store := overwriteLocalData s.store newCategories newProducts newEarnings newSales }

/-- Embedding of the data-restore path of `handleLogin` (src/App.tsx
lines 186-198), modelling the branch in which a cloud snapshot exists
and the user confirms: overwrite the local stores with the snapshot
(`cloudData.earnings || 0`, `cloudData.sales || []` — the payload always
carries a sales list in this model) and then reload the in-memory state
from the stores via `loadData`. -/
def handleLogin (s : AppState) (email : String) : AppState :=
  match fetchFromCloud s.store email with
  | none => s
  | some cloudData =>
    let st2 := overwriteLocalData s.store cloudData.categories cloudData.products
      (JNum.num (cloudData.earnings.getD 0)) cloudData.sales
    { mem := loadData st2, store := st2 }

/-- Embedding of `resetEarnings` (src/App.tsx lines 248-255), modelling
the confirmed branch: zero the in-memory earnings, empty the in-memory
sales log, save 0 to the scalar store, and `overwriteLocalData` with the
current in-memory categories and products, earnings 0 and no sales. -/
def resetEarnings (s : AppState) : AppState :=
  { mem := { s.mem with totalEarnings := JNum.num 0, sales := [] }
    store := overwriteLocalData s.store s.mem.categories s.mem.products (JNum.num 0) [] }

/-- Part of the price string before the first '/', i.e.
`prod.price.split('/')[0]` (src/App.tsx line 98). -/
def retailPart (s : List Char) : List Char :=
  s.takeWhile (fun c => c ≠ '/')

/-- Embedding of `.replace(/[^\d.]/g, '')` (src/App.tsx line 99): keep
only decimal digits and dots. -/
def cleanPriceChars (s : List Char) : List Char :=
  s.filter (fun c => c.isDigit || c == '.')

/-- Value of a digit list read as a decimal natural number. -/
def digitsVal (l : List Char) : Nat :=
  l.foldl (fun n c => 10 * n + (c.toNat - 48)) 0

/-- Embedding of `parseFloat` on a string of digits and dots: the longest
numeric prefix `digits [ '.' digits ]` must contain at least one digit,
else the result is NaN (`none`). -/
def parseFloatClean (l : List Char) : Option ℚ :=
  let intPart := l.takeWhile Char.isDigit
  let rest := l.dropWhile Char.isDigit
  match rest with
  | '.' :: rest2 =>
    let fracPart := rest2.takeWhile Char.isDigit
    if intPart.isEmpty && fracPart.isEmpty then none
    else some ((digitsVal intPart : ℚ) + (digitsVal fracPart : ℚ) / ((10 : ℚ) ^ fracPart.length))
  | _ => if intPart.isEmpty then none else some (digitsVal intPart)

/-- Parsed retail price of a product price string (src/App.tsx lines
98-100): take the part before the first '/', strip every character that
is not a digit or a dot, `parseFloat` it, and coerce NaN (and only a
falsy result, which here can only be NaN or 0) to 0 via `|| 0`. -/
def parseRetail (price : String) : ℚ :=
  (parseFloatClean (cleanPriceChars (retailPart price.data))).getD 0

/-- Embedding of `totalInventoryValue` (src/App.tsx lines 96-103): a
reduce over the products accumulating parsed retail price times
quantity, from 0. -/
def totalInventoryValue (products : List Product) : ℚ :=
  products.foldl (fun sum prod => sum + parseRetail prod.price * (prod.quantity : ℚ)) 0

/-- Fault kinds for the database layer model. -/
inductive DBErr where
  | openError : DBErr
  | opError : DBErr
deriving DecidableEq, Repr

/-- Fault injection for one database call: whether `openDB` rejects, and
whether the request/transaction of the operation itself errors. -/
structure DBFaults where
  openFails : Bool
  opFails : Bool
deriving DecidableEq, Repr

/-- Embedding of `getAll` (src/unnamed/part_000 lines 33-47) with fault
injection.  The `await openDB()` sits inside the try block, so an open
failure is caught and returns `[]`.  The promise wired to
`request.onerror` is returned from inside the try block without being
awaited, so in an async function its rejection bypasses the catch and
propagates to the caller. -/
def getAllF {α : Type} (f : DBFaults) (contents : List α) : Except DBErr (List α) :=
  if f.openFails then .ok []
  else if f.opFails then .error .opError
  else .ok contents

/-- Embedding of `saveItem` (src/unnamed/part_000 lines 49-62) with fault
injection.  The catch block swallows an `openDB` rejection (it only logs
and returns, resolving with undefined), while the promise wired to
`transaction.onerror` is returned without being awaited, so a
transaction write error propagates to the caller. -/
def saveItemF (f : DBFaults) : Except DBErr Unit :=
  if f.openFails then .ok ()
  else if f.opFails then .error .opError
  else .ok ()

/-- Embedding of `deleteItem` (src/unnamed/part_000 lines 64-81) with
fault injection: its catch block rethrows, so both an open failure and a
transaction error propagate. -/
def deleteItemF (f : DBFaults) : Except DBErr Unit :=
  if f.openFails then .error .openError
  else if f.opFails then .error .opError
  else .ok ()

/-- One `handleSale` call: its arguments plus the clock value. -/
structure SaleCmd where
  productId : String
  quantity : Int
  price : ℚ
  now : Nat

/-- Fold a list of sale calls over the application state. -/
def runSales (s : AppState) (cmds : List SaleCmd) : AppState :=
  cmds.foldl (fun st c => handleSale st c.productId c.quantity c.price c.now) s

/-- Every call of the list finds its product in the state current at the
time of the call (so none of them hits the silent early return). -/
def allSucceed : AppState → List SaleCmd → Bool
  | _, [] => true
  | s, c :: cs =>
    (s.mem.products.find? (fun p => p.id == c.productId)).isSome
      && allSucceed (handleSale s c.productId c.quantity c.price c.now) cs

/-- Total revenue of a list of sale calls. -/
def salesSum (cmds : List SaleCmd) : ℚ :=
  (cmds.map (fun c => c.price * (c.quantity : ℚ))).sum

/-- Example product used by concrete witnesses. -/
def exProduct : Product :=
  { id := "p1", name := "Widget", price := "100/80", quantity := 5,
    categoryId := "c1", barcode := "111", image := "" }

/-- Example state used by concrete witnesses: one product in stock, no
sales yet, earnings 0, memory and stores in sync. -/
def exState : AppState :=
  { mem := { categories := [], products := [exProduct], sales := [],
             totalEarnings := JNum.num 0 },
    store := { categories := [], products := [exProduct], sales := [],
               earnings := some 0, cloud := [] } }

/-- Sale record with timestamp 1, used by the import counterexample. -/
def exSaleA : SaleRecord :=
  { id := "1", productId := "p1", productName := "Widget", productImage := "",
    quantity := 1, soldAtPrice := 0, timestamp := 1 }

/-- Sale record with timestamp 2, used by the import counterexample. -/
def exSaleB : SaleRecord :=
  { id := "2", productId := "p1", productName := "Widget", productImage := "",
    quantity := 1, soldAtPrice := 0, timestamp := 2 }

/-- Import bundle whose sales list is in ascending timestamp order, used
by the import counterexample. -/
def exImportData : ImportData :=
  { categories := some [], products := some [], sales := some [exSaleA, exSaleB],
    earnings := none, totalEarnings := none }

/-- Example category used by concrete witnesses. -/
def exCategory : Category :=
  { id := "c1", name := "Tools", image := "" }

/-- Example cloud payload used by concrete witnesses. -/
def exPayload : CloudPayload :=
  { categories := [exCategory], products := [exProduct], sales := [exSaleA],
    earnings := some 7, lastUpdated := 3 }

/-- Example state carrying a stored cloud snapshot, used by concrete
witnesses of the restore and round-trip claims. -/
def exCloudState : AppState :=
  { mem := { categories := [], products := [], sales := [], totalEarnings := JNum.num 0 },
    store := { categories := [], products := [], sales := [], earnings := some 0,
               cloud := [(cloudKey "u@x.com", exPayload)] } }

/-! Helper lemmas about the keyed-store primitives. -/

theorem find?_map_replace {α : Type} (key : α → String) (k : String) (x : α)
    (hx : (key x == k) = true) :
    ∀ l : List α, l.any (fun y => key y == k) = true →
      (l.map (fun y => if key y == k then x else y)).find? (fun y => key y == k) = some x := by
  intro l
  induction l with
  | nil => intro h; simp at h
  | cons z zs ih =>
    intro h
    rw [List.map_cons]
    by_cases hz : (key z == k) = true
    · rw [if_pos hz]
      exact List.find?_cons_of_pos _ hx
    · rw [if_neg hz]
      have hstep : List.find? (fun y => key y == k)
          (z :: List.map (fun y => if key y == k then x else y) zs)
          = List.find? (fun y => key y == k)
              (List.map (fun y => if key y == k then x else y) zs) :=
        List.find?_cons_of_neg _ hz
      refine hstep.trans (ih ?_)
      obtain ⟨y, hy, hyk⟩ := List.any_eq_true.mp h
      rcases List.mem_cons.mp hy with rfl | hy2
      · exact absurd hyk hz
      · exact List.any_eq_true.mpr ⟨y, hy2, hyk⟩

theorem putById_of_absent {α : Type} (key : α → String) (x : α) (l : List α)
    (h : l.any (fun y => key y == key x) = false) :
    putById key x l = l ++ [x] := by
  unfold putById
  simp [h]

theorem find?_putById {α : Type} (key : α → String) (x : α) (l : List α) :
    (putById key x l).find? (fun y => key y == key x) = some x := by
  by_cases h : l.any (fun y => key y == key x) = true
  · unfold putById
    rw [if_pos h]
    exact find?_map_replace key (key x) x (by simp) l h
  · rw [Bool.not_eq_true] at h
    rw [putById_of_absent key x l h, List.find?_append]
    have hnone : l.find? (fun y => key y == key x) = none :=
      List.find?_eq_none.mpr (by simpa using List.any_eq_false.mp h)
    simp [hnone]

theorem putById_putById {α : Type} (key : α → String) (x1 x2 : α) (l : List α)
    (h : key x1 = key x2) :
    putById key x2 (putById key x1 l) = putById key x2 l := by
  have hx12 : (key x1 == key x2) = true := by simp [h]
  by_cases hl : l.any (fun y => key y == key x1) = true
  · have hl2 : l.any (fun y => key y == key x2) = true := by rw [← h]; exact hl
    unfold putById
    rw [if_pos hl, if_pos hl2]
    have hmapped : (l.map (fun y => if key y == key x1 then x1 else y)).any
        (fun y => key y == key x2) = true := by
      rw [List.any_map]
      obtain ⟨z, hz, hzk⟩ := List.any_eq_true.mp hl
      refine List.any_eq_true.mpr ⟨z, hz, ?_⟩
      simp only [Function.comp_apply]
      rw [if_pos hzk]
      exact hx12
    rw [if_pos hmapped, List.map_map]
    refine List.map_congr_left ?_
    intro a _
    simp only [Function.comp_apply]
    by_cases ha : (key a == key x1) = true
    · have ha2 : (key a == key x2) = true := by rw [← h]; exact ha
      rw [if_pos ha, if_pos hx12, if_pos ha2]
    · have ha2 : ¬ (key a == key x2) = true := by rw [← h]; exact ha
      rw [if_neg ha, if_neg ha2]
  · have hl2 : ¬ l.any (fun y => key y == key x2) = true := by rw [← h]; exact hl
    rw [Bool.not_eq_true] at hl
    rw [putById_of_absent key x1 l hl]
    unfold putById
    have happ : (l ++ [x1]).any (fun y => key y == key x2) = true := by
      rw [List.any_append]
      simp [hx12]
    rw [if_pos happ, if_neg hl2, List.map_append]
    have hall := List.any_eq_false.mp (Bool.not_eq_true _ ▸ hl2)
    have hself : l.map (fun y => if key y == key x2 then x2 else y) = l := by
      have hid : ∀ a ∈ l, (if key a == key x2 then x2 else a) = id a := by
        intro a ha
        have hna : ¬ (key a == key x2) = true := by simpa using hall a ha
        rw [if_neg hna]
        rfl
      rw [List.map_congr_left hid, List.map_id]
    rw [hself]
    simp only [List.map_cons, List.map_nil]
    rw [if_pos hx12]

theorem foldl_putById_of_nodup {α : Type} (key : α → String) :
    ∀ (l acc : List α), ((acc ++ l).map key).Nodup →
      l.foldl (fun a x => putById key x a) acc = acc ++ l := by
  intro l
  induction l with
  | nil => intro acc _; simp
  | cons x xs ih =>
    intro acc h
    have hx : acc.any (fun y => key y == key x) = false := by
      rw [List.map_append] at h
      obtain ⟨-, -, hdisj⟩ := List.nodup_append.mp h
      refine (List.any_eq_false).mpr ?_
      intro y hy
      simp only [beq_iff_eq]
      intro hkey
      exact hdisj (List.mem_map_of_mem key hy) (by simp [hkey])
    rw [List.foldl_cons, putById_of_absent key x acc hx, ih (acc ++ [x]) (by simpa using h)]
    simp

theorem putAll_of_nodup {α : Type} (key : α → String) (l : List α)
    (h : (l.map key).Nodup) :
    putAll key l = l := by
  unfold putAll
  simpa using foldl_putById_of_nodup key l [] (by simpa using h)

theorem lookupKV_putKV (k : String) (v : CloudPayload)
    (l : List (String × CloudPayload)) :
    lookupKV k (putKV k v l) = some v := by
  unfold lookupKV putKV
  have := find?_putById Prod.fst (k, v) l
  rw [this]
  rfl

theorem insertDesc_perm (r : SaleRecord) (l : List SaleRecord) :
    (insertDesc r l).Perm (r :: l) := by
  induction l with
  | nil => exact List.Perm.refl _
  | cons x xs ih =>
    unfold insertDesc
    split
    · exact List.Perm.refl _
    · exact (List.Perm.cons x ih).trans (List.Perm.swap r x xs)

theorem sortSalesDesc_perm (l : List SaleRecord) : (sortSalesDesc l).Perm l := by
  induction l with
  | nil => exact List.Perm.refl _
  | cons x xs ih =>
    unfold sortSalesDesc at ih ⊢
    exact (insertDesc_perm x _).trans (List.Perm.cons x ih)

theorem foldl_add_map {α : Type} (f : α → ℚ) :
    ∀ (l : List α) (init : ℚ),
      l.foldl (fun acc x => acc + f x) init = init + (l.map f).sum := by
  intro l
  induction l with
  | nil => intro init; simp
  | cons x xs ih =>
    intro init
    rw [List.foldl_cons, ih, List.map_cons, List.sum_cons]
    ring

/-! Characterization lemmas for `handleSale`. -/

theorem handleSale_not_found (s : AppState) (pid : String) (q : Int) (price : ℚ) (now : Nat)
    (h : s.mem.products.find? (fun p => p.id == pid) = none) :
    handleSale s pid q price now = s := by
  unfold handleSale
  rw [h]

theorem handleSale_found_fields (s : AppState) (pid : String) (q : Int) (price : ℚ) (now : Nat)
    (product : Product) (h : s.mem.products.find? (fun p => p.id == pid) = some product) :
    (handleSale s pid q price now).mem.sales = mkSaleRecord product q price now :: s.mem.sales
    ∧ (handleSale s pid q price now).store.sales
        = putById SaleRecord.id (mkSaleRecord product q price now) s.store.sales
    ∧ (handleSale s pid q price now).mem.totalEarnings
        = JNum.num (s.mem.totalEarnings.nanToZero + price * (q : ℚ))
    ∧ (handleSale s pid q price now).store.earnings
        = some (s.mem.totalEarnings.nanToZero + price * (q : ℚ))
    ∧ (handleSale s pid q price now).mem.categories = s.mem.categories
    ∧ (handleSale s pid q price now).store.categories = s.store.categories := by
  unfold handleSale
  rw [h]
  refine ⟨?_, ?_, ?_, ?_, ?_, ?_⟩ <;>
  · dsimp only
    split <;> rfl

theorem handleSale_delete_products (s : AppState) (pid : String) (q : Int) (price : ℚ)
    (now : Nat) (product : Product)
    (h : s.mem.products.find? (fun p => p.id == pid) = some product)
    (hq : product.quantity - q ≤ 0) :
    (handleSale s pid q price now).mem.products = removeById Product.id product.id s.mem.products
    ∧ (handleSale s pid q price now).store.products
        = removeById Product.id product.id s.store.products := by
  unfold handleSale
  rw [h]
  refine ⟨?_, ?_⟩ <;>
  · dsimp only
    split
    · rfl
    · rename_i hc
      exact absurd hq hc

theorem handleSale_keep_products (s : AppState) (pid : String) (q : Int) (price : ℚ)
    (now : Nat) (product : Product)
    (h : s.mem.products.find? (fun p => p.id == pid) = some product)
    (hq : ¬ product.quantity - q ≤ 0) :
    (handleSale s pid q price now).mem.products
      = s.mem.products.map (fun p =>
          if p.id == product.id then { product with quantity := product.quantity - q } else p)
    ∧ (handleSale s pid q price now).store.products
        = putById Product.id { product with quantity := product.quantity - q } s.store.products := by
  unfold handleSale
  rw [h]
  refine ⟨?_, ?_⟩ <;>
  · dsimp only
    split
    · rename_i hc
      exact absurd hc hq
    · rfl

theorem handleSale_nonneg (s : AppState) (pid : String) (q : Int) (price : ℚ) (now : Nat)
    (h : ∀ p ∈ s.mem.products, 0 ≤ p.quantity) :
    ∀ p ∈ (handleSale s pid q price now).mem.products, 0 ≤ p.quantity := by
  cases hf : s.mem.products.find? (fun p => p.id == pid) with
  | none =>
    rw [handleSale_not_found s pid q price now hf]
    exact h
  | some product =>
    by_cases hq : product.quantity - q ≤ 0
    · rw [(handleSale_delete_products s pid q price now product hf hq).1]
      intro p hp
      exact h p (List.mem_filter.mp hp).1
    · rw [(handleSale_keep_products s pid q price now product hf hq).1]
      intro p hp
      obtain ⟨a, ha, rfl⟩ := List.mem_map.mp hp
      by_cases hid : (a.id == product.id) = true
      · rw [if_pos hid]
        simp only []
        omega
      · rw [if_neg hid]
        exact h a ha

theorem runSales_nonneg (cmds : List SaleCmd) :
    ∀ s : AppState, (∀ p ∈ s.mem.products, 0 ≤ p.quantity) →
      ∀ p ∈ (runSales s cmds).mem.products, 0 ≤ p.quantity := by
  induction cmds with
  | nil => intro s h; exact h
  | cons c cs ih =>
    intro s h
    exact ih _ (handleSale_nonneg s c.productId c.quantity c.price c.now h)

theorem runSales_earnings (cmds : List SaleCmd) :
    ∀ (s : AppState) (e : ℚ), s.mem.totalEarnings = JNum.num e →
      allSucceed s cmds = true →
      (runSales s cmds).mem.totalEarnings = JNum.num (e + salesSum cmds) := by
  induction cmds with
  | nil =>
    intro s e he _
    simp [runSales, salesSum, he]
  | cons c cs ih =>
    intro s e he hs
    unfold allSucceed at hs
    rw [Bool.and_eq_true] at hs
    obtain ⟨hfind, hrest⟩ := hs
    obtain ⟨product, hp⟩ := Option.isSome_iff_exists.mp hfind
    have hstep := (handleSale_found_fields s c.productId c.quantity c.price c.now product hp).2.2.1
    rw [he] at hstep
    have := ih (handleSale s c.productId c.quantity c.price c.now)
      (e + c.price * (c.quantity : ℚ)) (by simpa [JNum.nanToZero] using hstep) hrest
    unfold runSales at this ⊢
    rw [List.foldl_cons]
    rw [this]
    unfold salesSum
    rw [List.map_cons, List.sum_cons, add_assoc]

/-! Claim theorems. -/

/-- Claim C1, counterexample: `handleSale` has no guard on the quantity
sold.  In a state holding product p1 with quantity 5, a call with
quantity -1 (which is ≤ 0) is not a no-op: it creates and persists a
sale record, changes the earnings, and changes the product — refuting
the claim that a call with `q <= 0` creates no sale record, leaves
earnings unchanged and leaves every product unchanged. -/
theorem recordSale_nonpositive_quantity_not_noop :
    ((-1 : Int) ≤ 0)
    ∧ (handleSale exState "p1" (-1) 100 5).mem.sales.length = exState.mem.sales.length + 1
    ∧ (handleSale exState "p1" (-1) 100 5).store.sales.length = exState.store.sales.length + 1
    ∧ (handleSale exState "p1" (-1) 100 5).mem.totalEarnings ≠ exState.mem.totalEarnings
    ∧ (handleSale exState "p1" (-1) 100 5).mem.products ≠ exState.mem.products := by
  refine ⟨by decide, ?_, ?_, ?_, ?_⟩ <;>
    simp [handleSale, exState, exProduct, mkSaleRecord, putById, removeById,
      JNum.nanToZero, saveEarningsVal]

/-- Claim C1 (amended): `recordSale(p, q, price)` is a no-op when no
product with id p exists in the in-memory products collection (nothing
is created or changed).  The `q <= 0` precondition is not enforced: when
the product exists, the call unconditionally — for every q, including
q ≤ 0 — creates a sale record and persists it to the sales store. -/
theorem recordSale_unknown_product_noop :
    (∀ (s : AppState) (pid : String) (q : Int) (price : ℚ) (now : Nat),
      s.mem.products.find? (fun p => p.id == pid) = none →
      handleSale s pid q price now = s)
    ∧ (∀ (s : AppState) (pid : String) (q : Int) (price : ℚ) (now : Nat) (product : Product),
        s.mem.products.find? (fun p => p.id == pid) = some product →
        (handleSale s pid q price now).mem.sales
            = mkSaleRecord product q price now :: s.mem.sales
        ∧ (handleSale s pid q price now).store.sales
            = putById SaleRecord.id (mkSaleRecord product q price now) s.store.sales) := by
  constructor
  · intro s pid q price now h
    exact handleSale_not_found s pid q price now h
  · intro s pid q price now product h
    exact ⟨(handleSale_found_fields s pid q price now product h).1,
           (handleSale_found_fields s pid q price now product h).2.1⟩

/-- Witness for the amended claim C1 at concrete inputs: an unknown id
leaves the example state untouched, and a known id prepends the built
sale record. -/
theorem recordSale_unknown_product_noop_witness :
    handleSale exState "zz" 1 5 7 = exState
    ∧ (handleSale exState "p1" 2 5 7).mem.sales
        = mkSaleRecord exProduct 2 5 7 :: exState.mem.sales :=
  ⟨recordSale_unknown_product_noop.1 exState "zz" 1 5 7 (by decide),
   (recordSale_unknown_product_noop.2 exState "p1" 2 5 7 exProduct (by decide)).1⟩

/-- Claim C2: starting from a state with all in-memory quantities
non-negative, any sequence of `recordSale` calls keeps them
non-negative; a single `recordSale` whose quantity sold is at least the
current quantity of the found product removes that product (by id) from
the in-memory collection and from the structured store, and one whose
quantity sold is less keeps the product, in memory and in the store,
with its quantity decreased by the quantity sold. -/
theorem recordSale_quantity_invariant :
    (∀ (s : AppState) (cmds : List SaleCmd),
      (∀ p ∈ s.mem.products, 0 ≤ p.quantity) →
      ∀ p ∈ (runSales s cmds).mem.products, 0 ≤ p.quantity)
    ∧ (∀ (s : AppState) (pid : String) (q : Int) (price : ℚ) (now : Nat) (product : Product),
        s.mem.products.find? (fun p => p.id == pid) = some product →
        (product.quantity ≤ q →
          (∀ p ∈ (handleSale s pid q price now).mem.products, p.id ≠ product.id)
          ∧ (∀ p ∈ (handleSale s pid q price now).store.products, p.id ≠ product.id))
        ∧ (q < product.quantity →
          (handleSale s pid q price now).mem.products.find? (fun p => p.id == pid)
              = some { product with quantity := product.quantity - q }
          ∧ (handleSale s pid q price now).store.products.find? (fun p => p.id == pid)
              = some { product with quantity := product.quantity - q })) := by
  constructor
  · intro s cmds h
    exact runSales_nonneg cmds s h
  · intro s pid q price now product h
    have hb := List.find?_some h
    have hid : product.id = pid := by simpa using hb
    constructor
    · intro hq
      have hq0 : product.quantity - q ≤ 0 := by omega
      obtain ⟨hm, hst⟩ := handleSale_delete_products s pid q price now product h hq0
      rw [hm, hst]
      constructor <;>
      · intro p hp
        have := (List.mem_filter.mp hp).2
        simpa using this
    · intro hq
      have hq0 : ¬ product.quantity - q ≤ 0 := by omega
      obtain ⟨hm, hst⟩ := handleSale_keep_products s pid q price now product h hq0
      rw [hm, hst]
      subst hid
      constructor
      · refine find?_map_replace Product.id product.id _ (by simp) _ ?_
        exact List.any_eq_true.mpr ⟨product, List.mem_of_find?_eq_some h, by simp⟩
      · exact find?_putById Product.id { product with quantity := product.quantity - q }
          s.store.products

/-- Witness for claim C2 at concrete inputs: a sale of 2 from stock 5
keeps the product at quantity 3 in memory and store, a sale of 5 removes
it everywhere, and the invariant holds after the two-command run. -/
theorem recordSale_quantity_invariant_witness :
    (∀ p ∈ (runSales exState [⟨"p1", 2, 100, 5⟩, ⟨"p1", 3, 80, 6⟩]).mem.products,
      0 ≤ p.quantity)
    ∧ (∀ p ∈ (handleSale exState "p1" 5 100 7).mem.products, p.id ≠ exProduct.id)
    ∧ ((handleSale exState "p1" 2 100 7).mem.products.find? (fun p => p.id == "p1")
        = some { exProduct with quantity := exProduct.quantity - 2 }) :=
  ⟨recordSale_quantity_invariant.1 exState _ (by decide),
   ((recordSale_quantity_invariant.2 exState "p1" 5 100 7 exProduct (by decide)).1
      (by decide)).1,
   ((recordSale_quantity_invariant.2 exState "p1" 2 100 7 exProduct (by decide)).2
      (by decide)).1⟩

/-- Claim C3: a successful `recordSale` sets the earnings — in memory
and in the scalar store — to the current earnings (with NaN treated as
0) plus price times quantity, and consequently, starting from earnings
0, the earnings after any sequence of successful sales equal the sum of
price times quantity over those sales. -/
theorem recordSale_earnings_sum :
    (∀ (s : AppState) (pid : String) (q : Int) (price : ℚ) (now : Nat) (product : Product),
      s.mem.products.find? (fun p => p.id == pid) = some product →
      (handleSale s pid q price now).mem.totalEarnings
          = JNum.num (s.mem.totalEarnings.nanToZero + price * (q : ℚ))
      ∧ (handleSale s pid q price now).store.earnings
          = some (s.mem.totalEarnings.nanToZero + price * (q : ℚ)))
    ∧ JNum.nanToZero JNum.nan = 0
    ∧ (∀ (s : AppState) (cmds : List SaleCmd),
        s.mem.totalEarnings = JNum.num 0 →
        allSucceed s cmds = true →
        (runSales s cmds).mem.totalEarnings = JNum.num (salesSum cmds)) := by
  refine ⟨?_, rfl, ?_⟩
  · intro s pid q price now product h
    exact ⟨(handleSale_found_fields s pid q price now product h).2.2.1,
           (handleSale_found_fields s pid q price now product h).2.2.2.1⟩
  · intro s cmds he hs
    have := runSales_earnings cmds s 0 he hs
    rwa [zero_add] at this

/-- Witness for claim C3 at concrete inputs: selling 2 units at price
100 from earnings 0 yields earnings 200 in memory and store, and a
two-sale run sums to the total revenue. -/
theorem recordSale_earnings_sum_witness :
    ((handleSale exState "p1" 2 100 7).mem.totalEarnings
        = JNum.num (exState.mem.totalEarnings.nanToZero + 100 * ((2 : Int) : ℚ)))
    ∧ ((runSales exState [⟨"p1", 2, 100, 5⟩, ⟨"p1", 1, 80, 6⟩]).mem.totalEarnings
        = JNum.num (salesSum [⟨"p1", 2, 100, 5⟩, ⟨"p1", 1, 80, 6⟩])) :=
  ⟨(recordSale_earnings_sum.1 exState "p1" 2 100 7 exProduct (by decide)).1,
   recordSale_earnings_sum.2.2 exState _ (by decide) (by decide)⟩

/-- Claim C4, counterexample: the file import path does not re-read
in-memory state from the stores.  Importing a bundle whose sales list is
in ascending timestamp order leaves the in-memory sales in bundle order,
while a reload from the stores would sort them descending — so the
in-memory state right after `handleImport` differs from what a store
re-read yields, refuting the claim that every full-state restore
re-reads the collections from the stores. -/
theorem import_does_not_reload_from_store :
    (handleImport exState exImportData).mem.sales = [exSaleA, exSaleB]
    ∧ (loadData (handleImport exState exImportData).store).sales = [exSaleB, exSaleA]
    ∧ (handleImport exState exImportData).mem
        ≠ loadData (handleImport exState exImportData).store := by
  refine ⟨rfl, rfl, ?_⟩
  intro hcontra
  have h1 : [exSaleA, exSaleB] = [exSaleB, exSaleA] := by
    calc [exSaleA, exSaleB] = (handleImport exState exImportData).mem.sales := rfl
      _ = (loadData (handleImport exState exImportData).store).sales := by rw [hcontra]
      _ = [exSaleB, exSaleA] := rfl
  have h2 : exSaleA = exSaleB := (List.cons.injEq _ _ _ _ ▸ congrArg id h1).1
  exact absurd (congrArg SaleRecord.id h2) (by decide)

/-- Claim C4 (amended): the cloud-pull restore (`handleLogin`) first
overwrites the durable stores and then re-reads the in-memory state from
the stores, so after it the in-memory state equals a store reload; the
file import (`handleImport`) also overwrites the stores first, but then
sets the in-memory collections directly from the bundle values instead
of re-reading them. -/
theorem restore_reload_contract :
    (∀ (s : AppState) (email : String) (cloudData : CloudPayload),
      fetchFromCloud s.store email = some cloudData →
      (handleLogin s email).mem = loadData (handleLogin s email).store)
    ∧ (∀ (s : AppState) (data : ImportData),
        (handleImport s data).store
            = overwriteLocalData s.store (data.categories.getD []) (data.products.getD [])
                (jsOrNum data.earnings (jsOrNum data.totalEarnings (JNum.num 0)))
                (data.sales.getD [])
        ∧ (handleImport s data).mem.categories = data.categories.getD []
        ∧ (handleImport s data).mem.products = data.products.getD []
        ∧ (handleImport s data).mem.sales = data.sales.getD []) := by
  constructor
  · intro s email cloudData h
    unfold handleLogin
    rw [h]
  · intro s data
    exact ⟨rfl, rfl, rfl, rfl⟩

/-- Witness for the amended claim C4 at concrete inputs: a login that
finds the stored example snapshot leaves memory equal to a store reload,
and an import takes its in-memory sales directly from the bundle. -/
theorem restore_reload_contract_witness :
    (handleLogin exCloudState "U@X.COM").mem
        = loadData (handleLogin exCloudState "U@X.COM").store
    ∧ (handleImport exState exImportData).mem.sales = exImportData.sales.getD [] :=
  ⟨restore_reload_contract.1 exCloudState "U@X.COM" exPayload (by decide),
   (restore_reload_contract.2 exState exImportData).2.2.2⟩

/-- Claim C5: overwriting the stores with a bundle (the
`overwriteLocalData` step of every restore) and then re-loading
(`loadData`, the startup reload) yields in-memory collections equal to
the bundle collections — the sales up to the timestamp-descending
reordering of the load, hence equal as multisets of records — and
in-memory earnings equal to the bundle earnings, provided ids are unique
within each bundle collection. -/
theorem restore_then_reload (s : AppState) (cats : List Category)
    (prods : List Product) (salesL : List SaleRecord) (e : ℚ)
    (hc : (cats.map Category.id).Nodup) (hp : (prods.map Product.id).Nodup)
    (hs : (salesL.map SaleRecord.id).Nodup) :
    (loadData (overwriteLocalData s.store cats prods (JNum.num e) salesL)).categories = cats
    ∧ (loadData (overwriteLocalData s.store cats prods (JNum.num e) salesL)).products = prods
    ∧ (loadData (overwriteLocalData s.store cats prods (JNum.num e) salesL)).sales.Perm salesL
    ∧ (loadData (overwriteLocalData s.store cats prods (JNum.num e) salesL)).totalEarnings
        = JNum.num e := by
  refine ⟨?_, ?_, ?_, rfl⟩
  · exact putAll_of_nodup Category.id cats hc
  · exact putAll_of_nodup Product.id prods hp
  · show (sortSalesDesc (putAll SaleRecord.id salesL)).Perm salesL
    rw [putAll_of_nodup SaleRecord.id salesL hs]
    exact sortSalesDesc_perm salesL

/-- Witness for claim C5 at concrete inputs: restoring a one-element
bundle and re-loading reproduces its collections and earnings. -/
theorem restore_then_reload_witness :
    (loadData (overwriteLocalData exState.store [exCategory] [exProduct] (JNum.num 7)
        [exSaleA])).categories = [exCategory]
    ∧ (loadData (overwriteLocalData exState.store [exCategory] [exProduct] (JNum.num 7)
        [exSaleA])).products = [exProduct]
    ∧ (loadData (overwriteLocalData exState.store [exCategory] [exProduct] (JNum.num 7)
        [exSaleA])).sales.Perm [exSaleA]
    ∧ (loadData (overwriteLocalData exState.store [exCategory] [exProduct] (JNum.num 7)
        [exSaleA])).totalEarnings = JNum.num 7 :=
  restore_then_reload exState [exCategory] [exProduct] [exSaleA] 7
    (by decide) (by decide) (by decide)

/-- Claim C6: pushing a snapshot and pulling it back — with any email
that lower-cases to the same key — returns a bundle whose categories,
products, sales and earnings equal the in-memory state at push time. -/
theorem snapshot_roundtrip (st : StoreState) (m : MemState) (now : Nat)
    (e1 e2 : String) (he : jsToLower e1 = jsToLower e2) (q : ℚ)
    (hq : m.totalEarnings = JNum.num q) :
    fetchFromCloud (syncToCloud st e1 m now) e2
      = some { categories := m.categories, products := m.products, sales := m.sales,
               earnings := some q, lastUpdated := now } := by
  unfold fetchFromCloud syncToCloud
  have hkey : cloudKey e2 = cloudKey e1 := by unfold cloudKey; rw [he]
  rw [hq]
  show lookupKV (cloudKey e2) (putKV (cloudKey e1) _ st.cloud) = _
  rw [hkey, lookupKV_putKV]
  rfl

/-- Witness for claim C6 at concrete inputs: a push under one spelling
of the email followed by a pull under another spelling that lower-cases
equally returns the pushed state. -/
theorem snapshot_roundtrip_witness :
    fetchFromCloud (syncToCloud exState.store "A@B.C" exState.mem 9) "a@b.c"
      = some { categories := exState.mem.categories, products := exState.mem.products,
               sales := exState.mem.sales, earnings := some 0, lastUpdated := 9 } :=
  snapshot_roundtrip exState.store exState.mem 9 "A@B.C" "a@b.c" (by decide) 0 (by decide)

/-- Claim C7: `resetEarnings` zeroes earnings and empties the sales in
memory and in the stores, and — in a state whose store categories and
products mirror memory, with unique ids — leaves the categories and
products collections unchanged in memory and in the stores. -/
theorem resetEarnings_frame (s : AppState)
    (hc : s.store.categories = s.mem.categories)
    (hp : s.store.products = s.mem.products)
    (hcn : (s.mem.categories.map Category.id).Nodup)
    (hpn : (s.mem.products.map Product.id).Nodup) :
    (resetEarnings s).mem.totalEarnings = JNum.num 0
    ∧ (resetEarnings s).mem.sales = []
    ∧ (resetEarnings s).store.earnings = some 0
    ∧ (resetEarnings s).store.sales = []
    ∧ (resetEarnings s).mem.categories = s.mem.categories
    ∧ (resetEarnings s).mem.products = s.mem.products
    ∧ (resetEarnings s).store.categories = s.store.categories
    ∧ (resetEarnings s).store.products = s.store.products := by
  refine ⟨rfl, rfl, rfl, rfl, rfl, rfl, ?_, ?_⟩
  · show putAll Category.id s.mem.categories = s.store.categories
    rw [putAll_of_nodup Category.id s.mem.categories hcn, hc]
  · show putAll Product.id s.mem.products = s.store.products
    rw [putAll_of_nodup Product.id s.mem.products hpn, hp]

/-- Claim C8, counterexample: the stated error contract fails on both
sides.  With a failing read request (store opened, request errors),
`getAll` propagates the error to its caller instead of returning the
empty sequence; and with a store that fails to open, `saveItem` resolves
without error instead of propagating the open failure. -/
theorem store_error_contract_cex :
    getAllF { openFails := false, opFails := true } ([] : List Product)
        = Except.error DBErr.opError
    ∧ saveItemF { openFails := true, opFails := false } = Except.ok () :=
  ⟨rfl, rfl⟩

/-- Claim C8 (amended): `getAll` fails soft only on an open failure
(returning the empty sequence); a failing read request propagates to the
caller.  `upsert` (saveItem) propagates a transaction write error but
swallows an open failure, resolving without error.  Absent faults, both
succeed. -/
theorem store_error_contract :
    ∀ f : DBFaults,
      (f.openFails = true →
        (∀ contents : List Product, getAllF f contents = Except.ok [])
        ∧ saveItemF f = Except.ok ())
      ∧ (f.openFails = false → f.opFails = true →
          (∀ contents : List Product, getAllF f contents = Except.error DBErr.opError)
          ∧ saveItemF f = Except.error DBErr.opError)
      ∧ (f.openFails = false → f.opFails = false →
          (∀ contents : List Product, getAllF f contents = Except.ok contents)
          ∧ saveItemF f = Except.ok ()) := by
  intro f
  refine ⟨fun h1 => ⟨fun contents => by simp [getAllF, h1], by simp [saveItemF, h1]⟩,
          fun h1 h2 => ⟨fun contents => by simp [getAllF, h1, h2], by simp [saveItemF, h1, h2]⟩,
          fun h1 h2 => ⟨fun contents => by simp [getAllF, h1, h2], by simp [saveItemF, h1, h2]⟩⟩

/-- Witness for the amended claim C8 at concrete fault patterns. -/
theorem store_error_contract_witness :
    (getAllF { openFails := true, opFails := false } [exProduct] = Except.ok []
      ∧ saveItemF { openFails := true, opFails := false } = Except.ok ())
    ∧ (getAllF { openFails := false, opFails := false } [exProduct] = Except.ok [exProduct]
      ∧ saveItemF { openFails := false, opFails := false } = Except.ok ()) :=
  ⟨⟨((store_error_contract ⟨true, false⟩).1 rfl).1 [exProduct],
    ((store_error_contract ⟨true, false⟩).1 rfl).2⟩,
   ⟨((store_error_contract ⟨false, false⟩).2.2 rfl rfl).1 [exProduct],
    ((store_error_contract ⟨false, false⟩).2.2 rfl rfl).2⟩⟩

/-- Claim C9: the total inventory value equals the sum over the products
of the parsed retail price — the part of the price string before the
first slash, cleaned and parsed — times the quantity, and a price whose
retail part fails to parse contributes 0 instead of failing the whole
computation. -/
theorem totalInventoryValue_sum :
    (∀ prods : List Product,
      totalInventoryValue prods
        = (prods.map (fun p => parseRetail p.price * (p.quantity : ℚ))).sum)
    ∧ (∀ price : String,
        parseFloatClean (cleanPriceChars (retailPart price.data)) = none →
        parseRetail price = 0) := by
  constructor
  · intro prods
    unfold totalInventoryValue
    simpa using foldl_add_map (fun p => parseRetail p.price * (p.quantity : ℚ)) prods 0
  · intro price h
    unfold parseRetail
    rw [h]
    rfl

/-- Witness for claim C9 at concrete inputs: the one-product sum, and a
malformed price parsing to 0. -/
theorem totalInventoryValue_sum_witness :
    totalInventoryValue [exProduct]
        = ([exProduct].map (fun p => parseRetail p.price * (p.quantity : ℚ))).sum
    ∧ parseRetail "abc" = 0 :=
  ⟨totalInventoryValue_sum.1 [exProduct],
   totalInventoryValue_sum.2 "abc" (by decide)⟩

/-- Claim C10: every sale record is created with id equal to the decimal
string of the creation-time millisecond clock, and a second sale
persisted in the same millisecond carries the same id, so its keyed put
into the sales store replaces the first record: the store after the two
sales equals the original store with only the second record put in. -/
theorem sale_id_same_millisecond_replaces :
    (∀ (product : Product) (q : Int) (price : ℚ) (now : Nat),
      (mkSaleRecord product q price now).id = toString now)
    ∧ (∀ (s : AppState) (pid1 : String) (q1 : Int) (p1 : ℚ) (pid2 : String) (q2 : Int)
        (p2 : ℚ) (now : Nat) (prod1 prod2 : Product),
        s.mem.products.find? (fun p => p.id == pid1) = some prod1 →
        (handleSale s pid1 q1 p1 now).mem.products.find? (fun p => p.id == pid2)
            = some prod2 →
        (handleSale (handleSale s pid1 q1 p1 now) pid2 q2 p2 now).store.sales
            = putById SaleRecord.id (mkSaleRecord prod2 q2 p2 now) s.store.sales) := by
  constructor
  · intro product q price now
    rfl
  · intro s pid1 q1 p1 pid2 q2 p2 now prod1 prod2 h1 h2
    have hs1 := (handleSale_found_fields s pid1 q1 p1 now prod1 h1).2.1
    have hs2 := (handleSale_found_fields (handleSale s pid1 q1 p1 now) pid2 q2 p2 now
      prod2 h2).2.1
    rw [hs2, hs1]
    exact putById_putById SaleRecord.id (mkSaleRecord prod1 q1 p1 now)
      (mkSaleRecord prod2 q2 p2 now) s.store.sales rfl

/-- Witness for claim C10 at concrete inputs: two sales of the example
product in the same millisecond leave the store with only the second
record put onto the original sales list. -/
theorem sale_id_same_millisecond_replaces_witness :
    (mkSaleRecord exProduct 1 100 5).id = toString 5
    ∧ (handleSale (handleSale exState "p1" 1 100 5) "p1" 1 100 5).store.sales
        = putById SaleRecord.id (mkSaleRecord { exProduct with quantity := 4 } 1 100 5)
            exState.store.sales :=
  ⟨sale_id_same_millisecond_replaces.1 exProduct 1 100 5,
   sale_id_same_millisecond_replaces.2 exState "p1" 1 100 "p1" 1 100 5 exProduct
     { exProduct with quantity := 4 } (by decide) (by decide)⟩

/-- Witness for claim C7 at the concrete example state: after the reset,
earnings are 0, the sales log is empty, and the product list survives in
memory and store. -/
theorem resetEarnings_frame_witness :
    (resetEarnings exState).mem.totalEarnings = JNum.num 0
    ∧ (resetEarnings exState).mem.sales = []
    ∧ (resetEarnings exState).store.earnings = some 0
    ∧ (resetEarnings exState).store.sales = []
    ∧ (resetEarnings exState).mem.categories = exState.mem.categories
    ∧ (resetEarnings exState).mem.products = exState.mem.products
    ∧ (resetEarnings exState).store.categories = exState.store.categories
    ∧ (resetEarnings exState).store.products = exState.store.products :=
  resetEarnings_frame exState (by decide) (by decide) (by decide) (by decide)

end Goods
